import Mathlib

/-!
Shallow embedding of src/internal/grammars/thrift/runtime/thrift_runtime.c,
the C adaptation layer between a host caller and the tree-sitter engine for
the Thrift grammar.

Modelling conventions:
* `uintptr_t` handles become `Nat`, with `0` as the null handle.
* Nullable C pointers to values become `Option`.
* A caller-supplied output buffer of capacity `cap` becomes a `List` of the
  pre-call contents (length at least `cap` at the C level); a function that
  writes the first `k` slots returns the new buffer contents, namely the
  written entries followed by `buf.drop k`.  Returning the input list
  unchanged models "writes nothing".
* All counts and fields are `uint32_t` in C; the functions here only copy and
  compare them (no arithmetic), so `Nat` models them exactly.
* The tree-sitter engine is a black box.  Engine nodes (`TSNode`) are
  modelled as a tree value carrying the facts the engine accessors expose;
  engine calls on trees (`ts_tree_get_changed_ranges`, `ts_tree_edit`,
  `ts_parser_parse_string`) are passed in as function parameters, since the
  adapter treats them opaquely.
-/

/-- Engine point: a (row, column) position, as in the tree-sitter API. -/
structure TSPoint where
  row : Nat
  column : Nat
deriving DecidableEq, Repr

/-- Engine range, as returned by the changed-ranges query of the engine. -/
structure TSRange where
  start_point : TSPoint
  end_point : TSPoint
  start_byte : Nat
  end_byte : Nat
deriving DecidableEq, Repr

/-- The caller-facing changed-range record (struct TwChangedRange). -/
structure TwChangedRange where
  start_byte : Nat
  end_byte : Nat
  start_row : Nat
  start_col : Nat
  end_row : Nat
  end_col : Nat
deriving DecidableEq, Repr

/-- The caller-facing edit descriptor (struct TwInputEdit): nine unsigned
32-bit fields. -/
structure TwInputEdit where
  start_byte : Nat
  old_end_byte : Nat
  new_end_byte : Nat
  start_row : Nat
  start_col : Nat
  old_end_row : Nat
  old_end_col : Nat
  new_end_row : Nat
  new_end_col : Nat
deriving DecidableEq, Repr

/-- The native edit record of the engine (struct TSInputEdit). -/
structure TSInputEdit where
  start_byte : Nat
  old_end_byte : Nat
  new_end_byte : Nat
  start_point : TSPoint
  old_end_point : TSPoint
  new_end_point : TSPoint
deriving DecidableEq, Repr

/-- The caller-facing consolidated node snapshot (struct TwNodeInfo). -/
structure TwNodeInfo where
  symbol : Nat
  start_byte : Nat
  end_byte : Nat
  child_count : Nat
  flags : Nat
deriving DecidableEq, Repr

/-- Engine syntax node, modelled as the tree of facts the engine accessors
expose: symbol, byte span, the five boolean predicates, and the direct
children in left-to-right document order. -/
inductive TSNode : Type where
  | mk : Nat → Nat → Nat → Bool → Bool → Bool → Bool → Bool → List TSNode → TSNode

def ts_node_symbol : TSNode → Nat
  | .mk s _ _ _ _ _ _ _ _ => s

def ts_node_start_byte : TSNode → Nat
  | .mk _ sb _ _ _ _ _ _ _ => sb

def ts_node_end_byte : TSNode → Nat
  | .mk _ _ eb _ _ _ _ _ _ => eb

def ts_node_is_named : TSNode → Bool
  | .mk _ _ _ nm _ _ _ _ _ => nm

def ts_node_is_error : TSNode → Bool
  | .mk _ _ _ _ er _ _ _ _ => er

def ts_node_is_missing : TSNode → Bool
  | .mk _ _ _ _ _ ms _ _ _ => ms

def ts_node_is_extra : TSNode → Bool
  | .mk _ _ _ _ _ _ ex _ _ => ex

def ts_node_has_error : TSNode → Bool
  | .mk _ _ _ _ _ _ _ he _ => he

def ts_node_children_list : TSNode → List TSNode
  | .mk _ _ _ _ _ _ _ _ cs => cs

def ts_node_child_count (n : TSNode) : Nat :=
  (ts_node_children_list n).length

/-- The null node value the engine yields for an out-of-range child access. -/
def tsNullNode : TSNode :=
  .mk 0 0 0 false false false false false []

/-- Engine child accessor ts_node_child(node, i). -/
def ts_node_child (n : TSNode) (i : Nat) : TSNode :=
  (ts_node_children_list n).getD i tsNullNode

/-- Flag constants from the anonymous enum in the source. -/
def TW_NODE_FLAG_NAMED : Nat := 1 <<< 0

def TW_NODE_FLAG_ERROR : Nat := 1 <<< 1

def TW_NODE_FLAG_MISSING : Nat := 1 <<< 2

def TW_NODE_FLAG_EXTRA : Nat := 1 <<< 3

def TW_NODE_FLAG_HAS_ERROR : Nat := 1 <<< 4

/-- tw_node_flags: packs the five engine boolean predicates into one bit
field, exactly as the chain of if statements in the source does. -/
def tw_node_flags (n : TSNode) : Nat :=
  let flags0 : Nat := 0
  let flags1 := if ts_node_is_named n then flags0 ||| TW_NODE_FLAG_NAMED else flags0
  let flags2 := if ts_node_is_error n then flags1 ||| TW_NODE_FLAG_ERROR else flags1
  let flags3 := if ts_node_is_missing n then flags2 ||| TW_NODE_FLAG_MISSING else flags2
  let flags4 := if ts_node_is_extra n then flags3 ||| TW_NODE_FLAG_EXTRA else flags3
  if ts_node_has_error n then flags4 ||| TW_NODE_FLAG_HAS_ERROR else flags4

/-- tw_node_inspect: fills the out record from the node, or leaves the out
record untouched when either pointer is null.  The returned value is the
contents of the out buffer after the call. -/
def tw_node_inspect (node : Option TSNode) (out_info : Option TwNodeInfo) :
    Option TwNodeInfo :=
  match node, out_info with
  | some n, some _ =>
      some { symbol := ts_node_symbol n
             start_byte := ts_node_start_byte n
             end_byte := ts_node_end_byte n
             child_count := ts_node_child_count n
             flags := tw_node_flags n }
  | _, _ => out_info

/-- tw_node_children: returns the pair (return value, out buffer contents
after the call).  A null node pointer yields 0; a null buffer or zero
capacity yields a count-only query; otherwise the first
min(count, out_cap) slots are overwritten with ts_node_child(node, i). -/
def tw_node_children (node : Option TSNode) (out_nodes : Option (List TSNode))
    (out_cap : Nat) : Nat × Option (List TSNode) :=
  match node with
  | none => (0, out_nodes)
  | some n =>
    let count := ts_node_child_count n
    match out_nodes with
    | none => (count, none)
    | some buf =>
      if out_cap = 0 then (count, some buf)
      else
        let write_count := min count out_cap
        (count,
         some ((List.range write_count).map (fun i => ts_node_child n i) ++
               buf.drop write_count))

/-- Field-for-field conversion of an engine range into the caller record,
as done inside the copy loop of tw_tree_changed_ranges. -/
def twRangeOfTS (r : TSRange) : TwChangedRange :=
  { start_byte := r.start_byte
    end_byte := r.end_byte
    start_row := r.start_point.row
    start_col := r.start_point.column
    end_row := r.end_point.row
    end_col := r.end_point.column }

/-- A dummy range standing for an out-of-bounds engine-buffer read (never
reached when the engine reports a count matching its buffer). -/
def tsDummyRange : TSRange :=
  { start_point := ⟨0, 0⟩, end_point := ⟨0, 0⟩, start_byte := 0, end_byte := 0 }

/-- tw_tree_changed_ranges: tree handles are Nat with 0 as null; the engine
call ts_tree_get_changed_ranges is a parameter returning (range buffer or
null, reported count).  Returns the pair (return value, out buffer contents
after the call). -/
def tw_tree_changed_ranges
    (engine : Nat → Nat → Option (List TSRange) × Nat)
    (old_tree new_tree : Nat) (out_ranges : List TwChangedRange)
    (out_cap : Nat) : Nat × List TwChangedRange :=
  if old_tree = 0 ∨ new_tree = 0 then (0, out_ranges)
  else
    match engine old_tree new_tree with
    | (none, _) => (0, out_ranges)
    | (some ranges, count) =>
      let write_count := min count out_cap
      (count,
       (List.range write_count).map
           (fun i => twRangeOfTS (ranges.getD i tsDummyRange)) ++
         out_ranges.drop write_count)

/-- Field-for-field conversion of the caller edit descriptor into the native
engine edit record, as built inside tw_tree_edit. -/
def twEditToTS (e : TwInputEdit) : TSInputEdit :=
  { start_byte := e.start_byte
    old_end_byte := e.old_end_byte
    new_end_byte := e.new_end_byte
    start_point := ⟨e.start_row, e.start_col⟩
    old_end_point := ⟨e.old_end_row, e.old_end_col⟩
    new_end_point := ⟨e.new_end_row, e.new_end_col⟩ }

/-- tw_tree_edit: the engine heap maps tree handles to engine tree states of
an abstract type T, and ts_tree_edit is a parameter.  A null handle or a
null edit pointer leaves the heap unchanged; otherwise the tree at the
handle is updated in place with the converted edit record. -/
def tw_tree_edit {T : Type} (engineEdit : T → TSInputEdit → T)
    (heap : Nat → T) (tree : Nat) (edit : Option TwInputEdit) : Nat → T :=
  if tree = 0 then heap
  else
    match edit with
    | none => heap
    | some e => Function.update heap tree (engineEdit (heap tree) (twEditToTS e))

/-- tw_parser_parse_string: a pure pass-through to the engine parse call,
with no guarding of any argument (parser and old tree handles are Nat with
0 as null, the source pointer is nullable). -/
def tw_parser_parse_string
    (engineParse : Nat → Nat → Option (List Nat) → Nat → Nat)
    (parser : Nat) (old_tree : Nat) (src : Option (List Nat)) (len : Nat) :
    Nat :=
  engineParse parser old_tree src len

/-- Modelled from the spec: the named-children traversal variant
(section 4.5 of the spec), an operation of this repository whose code is not
in the runtime source file.  It restricts the children traversal to the
children flagged named, preserving relative left-to-right order, with the
same bounded-buffer, true-total-count contract as tw_node_children. -/
def tw_node_named_children (node : Option TSNode)
    (out_nodes : Option (List TSNode)) (out_cap : Nat) :
    Nat × Option (List TSNode) :=
  match node with
  | none => (0, out_nodes)
  | some n =>
    let named := (ts_node_children_list n).filter ts_node_is_named
    let count := named.length
    match out_nodes with
    | none => (count, none)
    | some buf =>
      if out_cap = 0 then (count, some buf)
      else
        let write_count := min count out_cap
        (count, some (named.take write_count ++ buf.drop write_count))

/-!  Helper lemmas about the index-loop copy pattern shared by the
bounded-buffer operations.  -/

/-- A loop writing slot i from l.getD i d for i below wc produces the first
wc elements of l, when wc is within l. -/
theorem range_map_getD {α : Type} (d : α) :
    ∀ (wc : Nat) (l : List α), wc ≤ l.length →
      (List.range wc).map (fun i => l.getD i d) = l.take wc := by
  intro wc
  induction wc with
  | zero => intro l _; simp
  | succ k ih =>
      intro l h
      have hk : k < l.length := h
      rw [List.range_succ, List.map_append, ih l hk.le, List.take_succ]
      simp [List.getD_eq_getElem l d hk, List.getElem?_eq_getElem hk]

/-- Same loop postcomposed with a conversion f. -/
theorem range_map_getD_comp {α β : Type} (f : α → β) (d : α)
    (wc : Nat) (l : List α) (h : wc ≤ l.length) :
    (List.range wc).map (fun i => f (l.getD i d)) = (l.take wc).map f := by
  have : (fun i => f (l.getD i d)) = f ∘ (fun i => l.getD i d) := rfl
  rw [this, ← List.map_map, range_map_getD d wc l h]

/-- The child loop of tw_node_children enumerates exactly the first wc
children of the node. -/
theorem range_map_child (n : TSNode) (wc : Nat)
    (h : wc ≤ ts_node_child_count n) :
    (List.range wc).map (fun i => ts_node_child n i) =
      (ts_node_children_list n).take wc := by
  have := range_map_getD tsNullNode wc (ts_node_children_list n) h
  simpa [ts_node_child] using this

/-- C2: for every node, tw_node_flags packs the five boolean facts into one
bit field in the fixed order named = bit 0, is-error = bit 1,
is-missing = bit 2, is-extra = bit 3, has-error = bit 4, each bit set
exactly when the corresponding engine predicate holds, and tw_node_inspect
records the symbol, start byte, end byte and child count of the node
together with that bit field. -/
theorem tw_node_flags_packing (n : TSNode) (info : TwNodeInfo) :
    ((tw_node_flags n).testBit 0 = ts_node_is_named n ∧
     (tw_node_flags n).testBit 1 = ts_node_is_error n ∧
     (tw_node_flags n).testBit 2 = ts_node_is_missing n ∧
     (tw_node_flags n).testBit 3 = ts_node_is_extra n ∧
     (tw_node_flags n).testBit 4 = ts_node_has_error n) ∧
    tw_node_inspect (some n) (some info) =
      some ⟨ts_node_symbol n, ts_node_start_byte n, ts_node_end_byte n,
            ts_node_child_count n, tw_node_flags n⟩ := by
  refine ⟨?_, rfl⟩
  cases h1 : ts_node_is_named n <;> cases h2 : ts_node_is_error n <;>
    cases h3 : ts_node_is_missing n <;> cases h4 : ts_node_is_extra n <;>
      cases h5 : ts_node_has_error n <;>
        simp [tw_node_flags, h1, h2, h3, h4, h5, TW_NODE_FLAG_NAMED,
          TW_NODE_FLAG_ERROR, TW_NODE_FLAG_MISSING, TW_NODE_FLAG_EXTRA,
          TW_NODE_FLAG_HAS_ERROR] <;> decide

/-- C6: tw_node_inspect leaves the out record untouched when the node
pointer or the out pointer is null, and fills all five fields when both are
non-null. -/
theorem tw_node_inspect_frame :
    (∀ i : Option TwNodeInfo, tw_node_inspect none i = i) ∧
    (∀ n : TSNode, tw_node_inspect (some n) none = none) ∧
    (∀ (n : TSNode) (i : TwNodeInfo), tw_node_inspect (some n) (some i) =
      some ⟨ts_node_symbol n, ts_node_start_byte n, ts_node_end_byte n,
            ts_node_child_count n, tw_node_flags n⟩) := by
  refine ⟨fun i => ?_, fun n => rfl, fun n i => rfl⟩
  cases i <;> rfl

/-- C5: tw_tree_edit is a silent no-op on a null tree handle or a null edit
pointer (the engine heap is unchanged and nothing is reported), and on
non-null arguments it converts the nine caller fields field-for-field into
the native engine edit record and applies it in place to the addressed
tree. -/
theorem tw_tree_edit_spec (T : Type) (engineEdit : T → TSInputEdit → T)
    (heap : Nat → T) :
    (∀ e, tw_tree_edit engineEdit heap 0 e = heap) ∧
    (∀ t, tw_tree_edit engineEdit heap t none = heap) ∧
    (∀ t e, tw_tree_edit engineEdit heap (t + 1) (some e) =
      Function.update heap (t + 1)
        (engineEdit (heap (t + 1)) (twEditToTS e))) ∧
    (∀ e : TwInputEdit, twEditToTS e =
      ⟨e.start_byte, e.old_end_byte, e.new_end_byte,
       ⟨e.start_row, e.start_col⟩, ⟨e.old_end_row, e.old_end_col⟩,
       ⟨e.new_end_row, e.new_end_col⟩⟩) := by
  refine ⟨fun e => rfl, fun t => ?_, fun t e => ?_, fun e => rfl⟩
  · by_cases ht : t = 0 <;> simp [tw_tree_edit, ht]
  · simp [tw_tree_edit]

/-- C7: tw_tree_changed_ranges returns 0 and leaves the caller buffer
untouched whenever either tree handle is null, for every engine (so the
engine is never consulted). -/
theorem tw_tree_changed_ranges_null_handle_guard
    (engine : Nat → Nat → Option (List TSRange) × Nat) (t : Nat)
    (buf : List TwChangedRange) (cap : Nat) :
    tw_tree_changed_ranges engine 0 t buf cap = (0, buf) ∧
    tw_tree_changed_ranges engine t 0 buf cap = (0, buf) := by
  constructor <;> simp [tw_tree_changed_ranges]

/-- C3: for every non-null node pointer, tw_node_children returns the total
direct child count; a null buffer or zero capacity makes it a count-only
query that writes nothing, so probing at capacity 0 and re-querying with a
buffer of exactly the probed size returns the same total both times. -/
theorem tw_node_children_count_spec (n : TSNode) :
    (∀ buf cap, (tw_node_children (some n) buf cap).1 = ts_node_child_count n) ∧
    (∀ cap, tw_node_children (some n) none cap = (ts_node_child_count n, none)) ∧
    (∀ buf, tw_node_children (some n) (some buf) 0 =
      (ts_node_child_count n, some buf)) ∧
    (∀ d, (tw_node_children (some n)
        (some (List.replicate (tw_node_children (some n) none 0).1 d))
        (tw_node_children (some n) none 0).1).1 =
      (tw_node_children (some n) none 0).1) := by
  have hfst : ∀ buf cap, (tw_node_children (some n) buf cap).1 =
      ts_node_child_count n := by
    intro buf cap
    cases buf with
    | none => rfl
    | some b => by_cases hc : cap = 0 <;> simp [tw_node_children, hc]
  refine ⟨hfst, fun cap => rfl, fun buf => by simp [tw_node_children], fun d => ?_⟩
  have h0 : (tw_node_children (some n) none 0).1 = ts_node_child_count n := rfl
  rw [h0, hfst]

/-- C1: for non-null tree handles and an engine diff returning a range
buffer with its true count, tw_tree_changed_ranges returns the total number
of changed ranges even beyond the capacity, and writes exactly the first
min(total, capacity) converted ranges, in engine order, with all six fields
copied field-for-field. -/
theorem tw_tree_changed_ranges_total_and_copy
    (engine : Nat → Nat → Option (List TSRange) × Nat)
    (o t : Nat) (l : List TSRange) (buf : List TwChangedRange) (cap : Nat)
    (heng : engine (o + 1) (t + 1) = (some l, l.length)) :
    (tw_tree_changed_ranges engine (o + 1) (t + 1) buf cap).1 = l.length ∧
    (tw_tree_changed_ranges engine (o + 1) (t + 1) buf cap).2 =
      (l.map twRangeOfTS).take (min l.length cap) ++
        buf.drop (min l.length cap) ∧
    (∀ r : TSRange, twRangeOfTS r =
      ⟨r.start_byte, r.end_byte, r.start_point.row, r.start_point.column,
       r.end_point.row, r.end_point.column⟩) := by
  have hmain : tw_tree_changed_ranges engine (o + 1) (t + 1) buf cap =
      (l.length,
       (List.range (min l.length cap)).map
           (fun i => twRangeOfTS (l.getD i tsDummyRange)) ++
         buf.drop (min l.length cap)) := by
    simp [tw_tree_changed_ranges, heng]
  rw [hmain]
  refine ⟨rfl, ?_, fun r => rfl⟩
  rw [range_map_getD_comp twRangeOfTS tsDummyRange _ l (Nat.min_le_left _ _),
    List.map_take]

/-- Witness for C1 at a concrete engine with two ranges and capacity one:
the call returns 2, writes only the first converted range, and field
copying is exact. -/
theorem tw_tree_changed_ranges_total_and_copy_witness :
    (tw_tree_changed_ranges
        (fun _ _ => (some [⟨⟨1, 2⟩, ⟨3, 4⟩, 5, 6⟩, ⟨⟨7, 8⟩, ⟨9, 10⟩, 11, 12⟩], 2))
        1 1 [⟨0, 0, 0, 0, 0, 0⟩] 1).1 = 2 ∧
    (tw_tree_changed_ranges
        (fun _ _ => (some [⟨⟨1, 2⟩, ⟨3, 4⟩, 5, 6⟩, ⟨⟨7, 8⟩, ⟨9, 10⟩, 11, 12⟩], 2))
        1 1 [⟨0, 0, 0, 0, 0, 0⟩] 1).2 =
      (([⟨⟨1, 2⟩, ⟨3, 4⟩, 5, 6⟩, ⟨⟨7, 8⟩, ⟨9, 10⟩, 11, 12⟩] :
          List TSRange).map twRangeOfTS).take (min 2 1) ++
        ([⟨0, 0, 0, 0, 0, 0⟩] : List TwChangedRange).drop (min 2 1) ∧
    twRangeOfTS ⟨⟨1, 2⟩, ⟨3, 4⟩, 5, 6⟩ = ⟨5, 6, 1, 2, 3, 4⟩ := by
  have h := tw_tree_changed_ranges_total_and_copy
    (fun _ _ => (some [⟨⟨1, 2⟩, ⟨3, 4⟩, 5, 6⟩, ⟨⟨7, 8⟩, ⟨9, 10⟩, 11, 12⟩], 2))
    0 0 [⟨⟨1, 2⟩, ⟨3, 4⟩, 5, 6⟩, ⟨⟨7, 8⟩, ⟨9, 10⟩, 11, 12⟩]
    [⟨0, 0, 0, 0, 0, 0⟩] 1 rfl
  exact ⟨h.1, h.2.1, h.2.2 ⟨⟨1, 2⟩, ⟨3, 4⟩, 5, 6⟩⟩

/-- The return value of tw_node_children on a non-null node is the total
child count, whatever the buffer and capacity. -/
theorem children_fst_eq_count (n : TSNode) (buf : Option (List TSNode))
    (cap : Nat) :
    (tw_node_children (some n) buf cap).1 = ts_node_child_count n := by
  cases buf with
  | none => rfl
  | some b => by_cases hc : cap = 0 <;> simp [tw_node_children, hc]

/-- C4: for a node with K > 0 children and a non-null buffer of capacity
C < K, tw_node_children returns K, writes exactly the children at indices
0..C-1 in document order (never more than C entries), and those entries
equal the first C entries of an unbounded query. -/
theorem tw_node_children_truncation (n : TSNode) (buf : List TSNode)
    (cp : Nat) (hK : 0 < ts_node_child_count n)
    (hC : cp < ts_node_child_count n) (hlen : buf.length = cp) :
    (tw_node_children (some n) (some buf) cp).1 = ts_node_child_count n ∧
    (tw_node_children (some n) (some buf) cp).2 =
      some ((List.range cp).map (fun i => ts_node_child n i)) ∧
    (∀ d, (tw_node_children (some n)
        (some (List.replicate (ts_node_child_count n) d))
        (ts_node_child_count n)).2 =
      some ((List.range (ts_node_child_count n)).map
              (fun i => ts_node_child n i))) ∧
    (List.range cp).map (fun i => ts_node_child n i) =
      ((List.range (ts_node_child_count n)).map
          (fun i => ts_node_child n i)).take cp := by
  refine ⟨children_fst_eq_count n (some buf) cp, ?_, ?_, ?_⟩
  · by_cases hcp : cp = 0
    · subst hcp
      have hnil : buf = [] := List.length_eq_zero.mp hlen
      subst hnil
      simp [tw_node_children]
    · have hmin : min (ts_node_child_count n) cp = cp :=
        Nat.min_eq_right hC.le
      have hdrop : buf.drop cp = [] :=
        List.drop_eq_nil_of_le (le_of_eq hlen)
      simp [tw_node_children, hcp, hmin, hdrop]
  · intro d
    have hcc : ts_node_child_count n ≠ 0 := Nat.pos_iff_ne_zero.mp hK
    have hdrop : (List.replicate (ts_node_child_count n) d).drop
        (ts_node_child_count n) = [] :=
      List.drop_eq_nil_of_le (le_of_eq (List.length_replicate _ _))
    simp [tw_node_children, hcc, hdrop]
  · rw [← List.map_take, List.take_range, Nat.min_eq_left hC.le]

/-- Witness for C4 at a node with two children and a buffer of capacity
one: the call returns 2 and writes only the first child. -/
theorem tw_node_children_truncation_witness :
    0 < ts_node_child_count
        (.mk 10 0 2 true false false false false
          [.mk 1 0 1 true false false false false [],
           .mk 2 1 2 false false false false false []]) ∧
    (tw_node_children
        (some (.mk 10 0 2 true false false false false
          [.mk 1 0 1 true false false false false [],
           .mk 2 1 2 false false false false false []]))
        (some [tsNullNode]) 1).1 =
      ts_node_child_count
        (.mk 10 0 2 true false false false false
          [.mk 1 0 1 true false false false false [],
           .mk 2 1 2 false false false false false []]) ∧
    (tw_node_children
        (some (.mk 10 0 2 true false false false false
          [.mk 1 0 1 true false false false false [],
           .mk 2 1 2 false false false false false []]))
        (some [tsNullNode]) 1).2 =
      some ((List.range 1).map
        (fun i => ts_node_child
          (.mk 10 0 2 true false false false false
            [.mk 1 0 1 true false false false false [],
             .mk 2 1 2 false false false false false []]) i)) := by
  have h := tw_node_children_truncation
    (.mk 10 0 2 true false false false false
      [.mk 1 0 1 true false false false false [],
       .mk 2 1 2 false false false false false []])
    [tsNullNode] 1 (by decide) (by decide) rfl
  exact ⟨by decide, h.1, h.2.1⟩

/-- C8: if the engine changed-range query returns a null range buffer,
tw_tree_changed_ranges returns 0 whatever count the engine reported through
its out-parameter, and the caller buffer is untouched. -/
theorem tw_tree_changed_ranges_null_ranges
    (engine : Nat → Nat → Option (List TSRange) × Nat)
    (o t c : Nat) (buf : List TwChangedRange) (cap : Nat)
    (heng : engine (o + 1) (t + 1) = (none, c)) :
    tw_tree_changed_ranges engine (o + 1) (t + 1) buf cap = (0, buf) := by
  simp [tw_tree_changed_ranges, heng]

/-- Witness for C8 at a concrete engine reporting a nonzero count of 7
alongside a null range buffer: the call still returns 0 and the non-empty
caller buffer is untouched. -/
theorem tw_tree_changed_ranges_null_ranges_witness :
    tw_tree_changed_ranges (fun _ _ => (none, 7)) 1 1
      [⟨9, 9, 9, 9, 9, 9⟩] 3 = (0, [⟨9, 9, 9, 9, 9, 9⟩]) :=
  tw_tree_changed_ranges_null_ranges (fun _ _ => (none, 7)) 0 0 7
    [⟨9, 9, 9, 9, 9, 9⟩] 3 rfl

/-- C9: the named-children traversal (modelled from the spec) returns the
total named-child count for every node; with a buffer of exactly that size
it writes exactly the children flagged named; that written sequence is a
subsequence of the full children list, and of the full-children traversal
output, preserving relative left-to-right order and containing precisely
the named children. -/
theorem tw_node_named_children_spec (n : TSNode) :
    (∀ buf cap, (tw_node_named_children (some n) buf cap).1 =
      ((ts_node_children_list n).filter ts_node_is_named).length) ∧
    (∀ d, (tw_node_named_children (some n)
        (some (List.replicate
          ((ts_node_children_list n).filter ts_node_is_named).length d))
        ((ts_node_children_list n).filter ts_node_is_named).length).2 =
      some ((ts_node_children_list n).filter ts_node_is_named)) ∧
    ((ts_node_children_list n).filter ts_node_is_named).Sublist
      (ts_node_children_list n) ∧
    (∀ c ∈ (ts_node_children_list n).filter ts_node_is_named,
      ts_node_is_named c = true) ∧
    (∀ c ∈ ts_node_children_list n, ts_node_is_named c = true →
      c ∈ (ts_node_children_list n).filter ts_node_is_named) ∧
    (∀ d, ∃ w fl,
      (tw_node_named_children (some n)
        (some (List.replicate
          ((ts_node_children_list n).filter ts_node_is_named).length d))
        ((ts_node_children_list n).filter ts_node_is_named).length).2 =
          some w ∧
      (tw_node_children (some n)
        (some (List.replicate (ts_node_child_count n) d))
        (ts_node_child_count n)).2 = some fl ∧
      w.Sublist fl) := by
  have hwrite : ∀ d : TSNode, (tw_node_named_children (some n)
      (some (List.replicate
        ((ts_node_children_list n).filter ts_node_is_named).length d))
      ((ts_node_children_list n).filter ts_node_is_named).length).2 =
      some ((ts_node_children_list n).filter ts_node_is_named) := by
    intro d
    by_cases hl : ((ts_node_children_list n).filter ts_node_is_named).length = 0
    · have hnil : (ts_node_children_list n).filter ts_node_is_named = [] :=
        List.length_eq_zero.mp hl
      simp [tw_node_named_children, hl, hnil]
    · have hdrop : (List.replicate
          ((ts_node_children_list n).filter ts_node_is_named).length d).drop
          ((ts_node_children_list n).filter ts_node_is_named).length = [] :=
        List.drop_eq_nil_of_le (le_of_eq (List.length_replicate _ _))
      simp [tw_node_named_children, hl, hdrop]
  have hfull : ∀ d : TSNode, (tw_node_children (some n)
      (some (List.replicate (ts_node_child_count n) d))
      (ts_node_child_count n)).2 = some (ts_node_children_list n) := by
    intro d
    by_cases hk : ts_node_child_count n = 0
    · have hnil : ts_node_children_list n = [] := List.length_eq_zero.mp hk
      simp [tw_node_children, hk, hnil]
    · have hdrop : (List.replicate (ts_node_child_count n) d).drop
          (ts_node_child_count n) = [] :=
        List.drop_eq_nil_of_le (le_of_eq (List.length_replicate _ _))
      have hrange := range_map_child n (ts_node_child_count n) le_rfl
      have htake : (ts_node_children_list n).take (ts_node_child_count n) =
          ts_node_children_list n := List.take_length _
      simp [tw_node_children, hk, hdrop, hrange, htake]
  refine ⟨?_, hwrite, List.filter_sublist _, ?_, ?_, ?_⟩
  · intro buf cap
    cases buf with
    | none => rfl
    | some b => by_cases hc : cap = 0 <;> simp [tw_node_named_children, hc]
  · intro c hc
    exact List.of_mem_filter hc
  · intro c hc hnm
    exact List.mem_filter.mpr ⟨hc, hnm⟩
  · intro d
    exact ⟨(ts_node_children_list n).filter ts_node_is_named,
      ts_node_children_list n, hwrite d, hfull d, List.filter_sublist _⟩

/-- Witness for C9 at a node with one named and one anonymous child: the
named traversal counts one child, its write equals the named filtering of
the children, the filtering is a subsequence of the children, and the
named-flag fact holds at the written child. -/
theorem tw_node_named_children_spec_witness :
    (tw_node_named_children
        (some (.mk 10 0 2 true false false false false
          [.mk 1 0 1 true false false false false [],
           .mk 2 1 2 false false false false false []])) none 0).1 =
      ((ts_node_children_list
          (.mk 10 0 2 true false false false false
            [.mk 1 0 1 true false false false false [],
             .mk 2 1 2 false false false false false []])).filter
        ts_node_is_named).length ∧
    ((ts_node_children_list
        (.mk 10 0 2 true false false false false
          [.mk 1 0 1 true false false false false [],
           .mk 2 1 2 false false false false false []])).filter
      ts_node_is_named).Sublist
      (ts_node_children_list
        (.mk 10 0 2 true false false false false
          [.mk 1 0 1 true false false false false [],
           .mk 2 1 2 false false false false false []])) ∧
    ts_node_is_named (.mk 1 0 1 true false false false false []) = true := by
  have h := tw_node_named_children_spec
    (.mk 10 0 2 true false false false false
      [.mk 1 0 1 true false false false false [],
       .mk 2 1 2 false false false false false []])
  refine ⟨h.1 none 0, h.2.2.1, ?_⟩
  exact h.2.2.2.1 (.mk 1 0 1 true false false false false [])
    (by exact List.Mem.head _)

/-- C10 counterexample: the traversal operation tw_node_children does guard
its node pointer: called with a null node and a non-null, non-empty buffer
of capacity 1 it returns 0 and writes nothing, contradicting the claim that
traversals perform no null-argument guarding at all. -/
theorem tw_node_children_does_guard_cex :
    tw_node_children none (some [tsNullNode]) 1 = (0, some [tsNullNode]) := rfl

/-- C10 amended: the parse operation performs no null-argument guarding (it
is an unconditional pass-through to the engine for every argument,
including null handles and a null source pointer), while edit application,
node inspection, node traversal and the changed-ranges diff each check
their pointer or handle arguments for null before proceeding: edit and
inspect silently no-op, traversal and changed-ranges return 0 and write
nothing. -/
theorem null_guard_policy_amended :
    (∀ (engineParse : Nat → Nat → Option (List Nat) → Nat → Nat)
        (p t : Nat) (src : Option (List Nat)) (len : Nat),
      tw_parser_parse_string engineParse p t src len =
        engineParse p t src len) ∧
    (∀ buf cap, tw_node_children none buf cap = (0, buf)) ∧
    (∀ i, tw_node_inspect none i = i) ∧
    (∀ n, tw_node_inspect (some n) none = none) ∧
    (∀ (T : Type) (engineEdit : T → TSInputEdit → T) (heap : Nat → T) e,
      tw_tree_edit engineEdit heap 0 e = heap) ∧
    (∀ (T : Type) (engineEdit : T → TSInputEdit → T) (heap : Nat → T) t,
      tw_tree_edit engineEdit heap t none = heap) ∧
    (∀ (engine : Nat → Nat → Option (List TSRange) × Nat) t buf cap,
      tw_tree_changed_ranges engine 0 t buf cap = (0, buf)) ∧
    (∀ (engine : Nat → Nat → Option (List TSRange) × Nat) t buf cap,
      tw_tree_changed_ranges engine t 0 buf cap = (0, buf)) := by
  refine ⟨fun _ _ _ _ _ => rfl, fun buf cap => rfl, fun i => ?_,
    fun n => rfl, fun T engineEdit heap e => rfl,
    fun T engineEdit heap t => ?_, fun engine t buf cap => ?_,
    fun engine t buf cap => ?_⟩
  · cases i <;> rfl
  · by_cases ht : t = 0 <;> simp [tw_tree_edit, ht]
  · simp [tw_tree_changed_ranges]
  · simp [tw_tree_changed_ranges]
